import Mathlib

/-!
Shallow embedding of the logstox structured-logging core (package `fields`,
the zap backend translators `toZapFields` / `dictMarshaler.MarshalLogObject`
from backends/zapx and `ToZap` from backend/zapx), together with theorems
settling the specification claims.

Modelling conventions:
- Go `string` is `Str := String`; Go `int`/`int64` are `Int`; Go
  `uint`/`uint64` are `Nat`; `float64` is carried opaquely as a bit-pattern
  token (`GoFloat := Nat`) since no claim computes with floats.
- `time.Time` is `GoTime := Nat`, an abstract instant whose zero value `0`
  models Go's zero time (`t.IsZero()` is `t == 0`); `time.Now()` is modelled
  by passing the translation-time instant `now` as an explicit parameter.
- A Go `error` value is identified by its message (`GoErr := String`); a
  possibly-nil error is `Option GoErr`.
- The dynamic type of an `any` payload is the `GoValue` inductive, one
  variant per runtime type the source stores or switches on; Go's distinct
  dynamic types `int` vs `int64` and `uint` vs `uint64` get distinct
  variants so `From`'s type switch is faithful.
- A lazy producer (`func() []Field`) is modelled extensionally by the field
  sequence it returns (the spec requires producers to be pure); invocation
  counting is done by a dedicated function mirroring the translator's
  control flow.
- A failed Go type assertion (a panic) is modelled as `none`: the
  translators return `Option` results, `some` meaning no panic occurred.
-/

namespace Logstox

abbrev Str := String
abbrev Bl := Bool
abbrev GoInt := Int
abbrev GoNat := Nat
abbrev GoErr := String
abbrev GoTime := Nat
abbrev GoDuration := Int
abbrev GoFloat := Nat

/-- FieldKind constants, in source (iota) order from fields/fields.go. -/
def FieldKindInvalid : Nat := 0

def FieldKindAny : Nat := 1

def FieldKindString : Nat := 2

def FieldKindBool : Nat := 3

def FieldKindInt64 : Nat := 4

def FieldKindUint64 : Nat := 5

def FieldKindFloat64 : Nat := 6

def FieldKindTime : Nat := 7

def FieldKindDuration : Nat := 8

def FieldKindError : Nat := 9

def FieldKindStrings : Nat := 10

def FieldKindBools : Nat := 11

def FieldKindInt64s : Nat := 12

def FieldKindUint64s : Nat := 13

def FieldKindFloat64s : Nat := 14

def FieldKindErrors : Nat := 15

def FieldKindDict : Nat := 16

def FieldKindRawJSON : Nat := 17

def FieldKindHexBytes : Nat := 18

def FieldKindLazyFields : Nat := 19

def FieldKindLazyValue : Nat := 20

def FieldKindTimestamp : Nat := 21

/-- The closed Kind enumeration of fields/fields.go. -/
def definedFieldKinds : List Nat :=
  [0, 1, 2, 3, 4, 5, 6, 7, 8, 9, 10, 11, 12, 13, 14, 15, 16, 17, 18, 19, 20, 21]

mutual
/-- Runtime (`any`) payload values the source stores in a Field or switches on. -/
inductive GoValue where
  | vNil
  | vUnit
  | vString (s : Str)
  | vBool (b : Bl)
  | vInt (i : GoInt)
  | vInt64 (i : GoInt)
  | vUint (u : GoNat)
  | vUint64 (u : GoNat)
  | vFloat64 (x : GoFloat)
  | vTime (t : GoTime)
  | vDuration (d : GoDuration)
  | vError (e : GoErr)
  | vStrings (l : List Str)
  | vBools (l : List Bl)
  | vInt64s (l : List GoInt)
  | vUint64s (l : List GoNat)
  | vFloat64s (l : List GoFloat)
  | vErrors (l : List (Option GoErr))
  | vBytes (b : List GoNat)
  | vFields (l : List Field)
  | vFunc (l : List Field)
  | vNative (zf : ZapField)

/-- fields.Field: Key + unexported kind + `any` Value. -/
inductive Field where
  | mk (Key : Str) (kind : Nat) (Value : GoValue)

/-- A zap.Field as constructed by the translators. `zObject` stores the
marshaler's raw sub-field slice, as zap.Object does; its encoding is the
separate `marshalDict` step. -/
inductive ZapField where
  | zSkip
  | zString (k v : Str)
  | zBool (k : Str) (b : Bl)
  | zInt64 (k : Str) (i : GoInt)
  | zUint64 (k : Str) (u : GoNat)
  | zFloat64 (k : Str) (x : GoFloat)
  | zDuration (k : Str) (d : GoDuration)
  | zTime (k : Str) (t : GoTime)
  | zError (e : GoErr)
  | zNamedError (k : Str) (e : GoErr)
  | zStrings (k : Str) (l : List Str)
  | zBools (k : Str) (l : List Bl)
  | zInt64s (k : Str) (l : List GoInt)
  | zUint64s (k : Str) (l : List GoNat)
  | zFloat64s (k : Str) (l : List GoFloat)
  | zErrors (k : Str) (l : List (Option GoErr))
  | zAnyJSON (k : Str) (b : List GoNat)
  | zObject (k : Str) (fs : List Field)
  | zAny (k : Str) (v : GoValue)
end

def Field.Key : Field → Str
  | .mk k _ _ => k

/-- The Kind() method (and the unexported kind discriminant it returns). -/
def Field.Kind : Field → Nat
  | .mk _ kd _ => kd

def Field.Value : Field → GoValue
  | .mk _ _ v => v

/-- IsZero reports whether f is a no-op field (kind == FieldKindInvalid). -/
def Field.IsZero (f : Field) : Bl :=
  f.Kind == FieldKindInvalid

/-- IsSkip, as implemented: `return !f.IsZero()` (its comment reads
"reports whether the field should be emitted"). -/
def Field.IsSkip (f : Field) : Bl :=
  !f.IsZero

namespace fields

/-- Conventional key constants. -/
def ErrorKey : Str := "error"

def TimestampKey : Str := "ts"

/-- The canonical no-op Field: empty key, Invalid kind, `struct{}{}` payload. -/
def Nop : Field :=
  .mk "" FieldKindInvalid .vUnit

def Any (k : Str) (v : GoValue) : Field :=
  .mk k FieldKindAny v

def String (k v : Str) : Field :=
  .mk k FieldKindString (.vString v)

def Bool (k : Str) (v : Bl) : Field :=
  .mk k FieldKindBool (.vBool v)

/-- Int stores the widened 64-bit signed representation (`int64(v)`). -/
def Int (k : Str) (v : GoInt) : Field :=
  .mk k FieldKindInt64 (.vInt64 v)

def Int64 (k : Str) (v : GoInt) : Field :=
  .mk k FieldKindInt64 (.vInt64 v)

/-- Uint stores the widened 64-bit unsigned representation (`uint64(v)`). -/
def Uint (k : Str) (v : GoNat) : Field :=
  .mk k FieldKindUint64 (.vUint64 v)

def Uint64 (k : Str) (v : GoNat) : Field :=
  .mk k FieldKindUint64 (.vUint64 v)

def Float64 (k : Str) (v : GoFloat) : Field :=
  .mk k FieldKindFloat64 (.vFloat64 v)

def TimeField (k : Str) (v : GoTime) : Field :=
  .mk k FieldKindTime (.vTime v)

def Duration (k : Str) (v : GoDuration) : Field :=
  .mk k FieldKindDuration (.vDuration v)

/-- Error: nil error returns the no-op Field, never a signalled failure. -/
def Error (err : Option GoErr) : Field :=
  match err with
  | none => Nop
  | some e => .mk ErrorKey FieldKindError (.vError e)

/-- NamedError: nil error returns the no-op Field, never a signalled failure. -/
def NamedError (k : Str) (err : Option GoErr) : Field :=
  match err with
  | none => Nop
  | some e => .mk k FieldKindError (.vError e)

def Strings (k : Str) (v : List Str) : Field :=
  .mk k FieldKindStrings (.vStrings v)

def Bools (k : Str) (v : List Bl) : Field :=
  .mk k FieldKindBools (.vBools v)

def Int64s (k : Str) (v : List GoInt) : Field :=
  .mk k FieldKindInt64s (.vInt64s v)

def Uint64s (k : Str) (v : List GoNat) : Field :=
  .mk k FieldKindUint64s (.vUint64s v)

def Float64s (k : Str) (v : List GoFloat) : Field :=
  .mk k FieldKindFloat64s (.vFloat64s v)

def Errors (k : Str) (v : List (Option GoErr)) : Field :=
  .mk k FieldKindErrors (.vErrors v)

def Dict (k : Str) (fs : List Field) : Field :=
  .mk k FieldKindDict (.vFields fs)

def RawJSON (k : Str) (json : List GoNat) : Field :=
  .mk k FieldKindRawJSON (.vBytes json)

def Hex (k : Str) (b : List GoNat) : Field :=
  .mk k FieldKindHexBytes (.vBytes b)

/-- LazyFields: a nil producer yields the zero Field `Field{}` (empty key,
Invalid kind, nil payload); otherwise the producer (modelled by its result
sequence) is stored under FieldKindLazyFields. -/
def LazyFields (fn : Option (List Field)) : Field :=
  match fn with
  | none => .mk "" FieldKindInvalid .vNil
  | some l => .mk "" FieldKindLazyFields (.vFunc l)

/-- Lazy: a nil producer yields the zero Field `Field{}`; otherwise it wraps
the producer and delegates to LazyFields (the context-accepting wrapper is
extensionally the same producer). -/
def Lazy (fn : Option (List Field)) : Field :=
  match fn with
  | none => .mk "" FieldKindInvalid .vNil
  | some l => LazyFields (some l)

def Timestamp (t : GoTime) : Field :=
  .mk TimestampKey FieldKindTimestamp (.vTime t)

def TimestampAt (k : Str) (t : GoTime) : Field :=
  .mk k FieldKindTimestamp (.vTime t)

/-- From: the generic constructor's type switch over the payload's dynamic
type; unmatched types (including a nil interface) fall through to Any. -/
def From (k : Str) (v : GoValue) : Field :=
  match v with
  | .vString t => String k t
  | .vBool t => Bool k t
  | .vInt t => Int k t
  | .vInt64 t => Int64 k t
  | .vUint t => Uint k t
  | .vUint64 t => Uint64 k t
  | .vFloat64 t => Float64 k t
  | .vTime t => TimeField k t
  | .vDuration t => Duration k t
  | .vError t => NamedError k (some t)
  | _ => Any k v

end fields

/-- One key/value addition made on a zapcore.ObjectEncoder by a dict marshaler.
Array and object additions store the marshaler's raw data, as zap does. -/
inductive ZapEntry where
  | eString (k v : Str)
  | eBool (k : Str) (b : Bl)
  | eInt64 (k : Str) (i : GoInt)
  | eUint64 (k : Str) (u : GoNat)
  | eFloat64 (k : Str) (x : GoFloat)
  | eDuration (k : Str) (d : GoDuration)
  | eTime (k : Str) (t : GoTime)
  | eArrayStrings (k : Str) (l : List Str)
  | eArrayBools (k : Str) (l : List Bl)
  | eArrayInt64s (k : Str) (l : List GoInt)
  | eArrayUint64s (k : Str) (l : List GoNat)
  | eArrayFloat64s (k : Str) (l : List GoFloat)
  | eArrayErrors (k : Str) (l : List (Option GoErr))
  | eObject (k : Str) (fs : List Field)
  | eReflectedJSON (k : Str) (b : List GoNat)
  | eReflected (k : Str) (v : GoValue)

/-- hex.EncodeToString digit (lowercase). -/
def hexDigit (n : GoNat) : Char :=
  if n < 10 then Char.ofNat (48 + n) else Char.ofNat (87 + n)

def hexEncodeByte (b : GoNat) : Str :=
  String.mk [hexDigit (b / 16 % 16), hexDigit (b % 16)]

/-- hex.EncodeToString: each byte as two lowercase hex digits. -/
def hexEncode (bs : List GoNat) : Str :=
  String.join (bs.map hexEncodeByte)

/-- backends/zapx toZapFields. `enabled` is `l.Core().Enabled(lvl)` (the
backend's enabled-predicate applied to the target severity, computed once);
`now` is the translation-time clock reading used for zero Timestamps. The
case chain follows the source switch in order; kinds without a case
(Invalid, LazyFields, and anything outside the enumeration) fall through to
`default: out = append(out, zap.Skip())`. A `none` result models a type
assertion panic; the source's `if len(fs) == 0 return nil` is the `[]` case. -/
def toZapFields (enabled : Bl) (now : GoTime) : List Field → Option (List ZapField)
  | [] => some []
  | .mk key kd value :: rest =>
    let hd : Option (List ZapField) :=
      if (Field.mk key kd value).IsSkip then some []
      else if kd == FieldKindLazyValue then
        match value with
        | .vFunc l => if !enabled then some [] else toZapFields enabled now l
        | _ => none
      else if kd == FieldKindDict then
        match value with
        | .vFields l => some [.zObject key l]
        | _ => none
      else if kd == FieldKindRawJSON then
        match value with
        | .vBytes b => some [.zAnyJSON key b]
        | _ => none
      else if kd == FieldKindHexBytes then
        match value with
        | .vBytes b => some [.zString key (hexEncode b)]
        | _ => none
      else if kd == FieldKindTimestamp then
        match value with
        | .vTime t => some [.zTime key (if t == 0 then now else t)]
        | _ => none
      else if kd == FieldKindString then
        match value with
        | .vString s => some [.zString key s]
        | _ => none
      else if kd == FieldKindBool then
        match value with
        | .vBool b => some [.zBool key b]
        | _ => none
      else if kd == FieldKindInt64 then
        match value with
        | .vInt64 i => some [.zInt64 key i]
        | _ => none
      else if kd == FieldKindUint64 then
        match value with
        | .vUint64 u => some [.zUint64 key u]
        | _ => none
      else if kd == FieldKindFloat64 then
        match value with
        | .vFloat64 x => some [.zFloat64 key x]
        | _ => none
      else if kd == FieldKindDuration then
        match value with
        | .vDuration d => some [.zDuration key d]
        | _ => none
      else if kd == FieldKindTime then
        match value with
        | .vTime t => some [.zTime key t]
        | _ => none
      else if kd == FieldKindError then
        match value with
        | .vError e =>
          some [if key == "" || key == fields.ErrorKey then .zError e else .zNamedError key e]
        | _ => none
      else if kd == FieldKindStrings then
        match value with
        | .vStrings l => some [.zStrings key l]
        | _ => none
      else if kd == FieldKindBools then
        match value with
        | .vBools l => some [.zBools key l]
        | _ => none
      else if kd == FieldKindInt64s then
        match value with
        | .vInt64s l => some [.zInt64s key l]
        | _ => none
      else if kd == FieldKindUint64s then
        match value with
        | .vUint64s l => some [.zUint64s key l]
        | _ => none
      else if kd == FieldKindFloat64s then
        match value with
        | .vFloat64s l => some [.zFloat64s key l]
        | _ => none
      else if kd == FieldKindErrors then
        match value with
        | .vErrors l => some [.zErrors key l]
        | _ => none
      else if kd == FieldKindAny then some [.zAny key value]
      else some [.zSkip]
    Option.bind hd fun h1 =>
      Option.bind (toZapFields enabled now rest) fun tl => some (h1 ++ tl)
termination_by fs => sizeOf fs

/-- Counts producer invocations performed by toZapFields on the same input,
mirroring its control flow exactly: a producer is counted when and only when
the code reaches `fn()` in the LazyValue case. -/
def lazyCalls (enabled : Bl) : List Field → GoNat
  | [] => 0
  | .mk key kd value :: rest =>
    (if (Field.mk key kd value).IsSkip then 0
     else if kd == FieldKindLazyValue then
       match value with
       | .vFunc l => if !enabled then 0 else 1 + lazyCalls enabled l
       | _ => 0
     else 0) + lazyCalls enabled rest
termination_by fs => sizeOf fs

/-- backends/zapx dictMarshaler.MarshalLogObject: the sequence of encoder
additions it performs, in order. `now` is the encode-time clock reading.
LazyValue contributes nothing ("expanded at the call site, ignore here");
the default arm skips invalid kinds. A `none` models an assertion panic. -/
def marshalDict (now : GoTime) : List Field → Option (List ZapEntry)
  | [] => some []
  | .mk key kd value :: rest =>
    let hd : Option (List ZapEntry) :=
      if (Field.mk key kd value).IsSkip then some []
      else if kd == FieldKindString then
        match value with
        | .vString s => some [.eString key s]
        | _ => none
      else if kd == FieldKindBool then
        match value with
        | .vBool b => some [.eBool key b]
        | _ => none
      else if kd == FieldKindInt64 then
        match value with
        | .vInt64 i => some [.eInt64 key i]
        | _ => none
      else if kd == FieldKindUint64 then
        match value with
        | .vUint64 u => some [.eUint64 key u]
        | _ => none
      else if kd == FieldKindFloat64 then
        match value with
        | .vFloat64 x => some [.eFloat64 key x]
        | _ => none
      else if kd == FieldKindDuration then
        match value with
        | .vDuration d => some [.eDuration key d]
        | _ => none
      else if kd == FieldKindTime then
        match value with
        | .vTime t => some [.eTime key t]
        | _ => none
      else if kd == FieldKindError then
        match value with
        | .vError e => some [.eString key e]
        | _ => none
      else if kd == FieldKindStrings then
        match value with
        | .vStrings l => some [.eArrayStrings key l]
        | _ => none
      else if kd == FieldKindBools then
        match value with
        | .vBools l => some [.eArrayBools key l]
        | _ => none
      else if kd == FieldKindInt64s then
        match value with
        | .vInt64s l => some [.eArrayInt64s key l]
        | _ => none
      else if kd == FieldKindUint64s then
        match value with
        | .vUint64s l => some [.eArrayUint64s key l]
        | _ => none
      else if kd == FieldKindFloat64s then
        match value with
        | .vFloat64s l => some [.eArrayFloat64s key l]
        | _ => none
      else if kd == FieldKindErrors then
        match value with
        | .vErrors l => some [.eArrayErrors key l]
        | _ => none
      else if kd == FieldKindDict then
        match value with
        | .vFields l => some [.eObject key l]
        | _ => none
      else if kd == FieldKindRawJSON then
        match value with
        | .vBytes b => some [.eReflectedJSON key b]
        | _ => none
      else if kd == FieldKindHexBytes then
        match value with
        | .vBytes b => some [.eString key (hexEncode b)]
        | _ => none
      else if kd == FieldKindTimestamp then
        match value with
        | .vTime t => some [.eTime key (if t == 0 then now else t)]
        | _ => none
      else if kd == FieldKindAny then some [.eReflected key value]
      else if kd == FieldKindLazyValue then some []
      else some []
    Option.bind hd fun h1 =>
      Option.bind (marshalDict now rest) fun tl => some (h1 ++ tl)

/-- backends/zapx Native: wraps a zap.Field in the `native` struct under an
Any-kind Field ("mapper handles the 'native' unwrapping first", per its
comment). -/
def Native (zf : ZapField) : Field :=
  fields.Any "__zap_native__" (.vNative zf)

/-- backend/zapx ToZap: per-field translation; `now` is the translation-time
clock reading used for zero Timestamps. Case order follows the source
switch; kinds without a case fall to `default: return zap.Skip()`. A `none`
models a type assertion panic. -/
def ToZap (now : GoTime) : Field → Option ZapField
  | .mk key kd value =>
    if kd == FieldKindString then
      match value with
      | .vString s => some (.zString key s)
      | _ => none
    else if kd == FieldKindBool then
      match value with
      | .vBool b => some (.zBool key b)
      | _ => none
    else if kd == FieldKindInt64 then
      match value with
      | .vInt64 i => some (.zInt64 key i)
      | _ => none
    else if kd == FieldKindUint64 then
      match value with
      | .vUint64 u => some (.zUint64 key u)
      | _ => none
    else if kd == FieldKindFloat64 then
      match value with
      | .vFloat64 x => some (.zFloat64 key x)
      | _ => none
    else if kd == FieldKindDuration then
      match value with
      | .vDuration d => some (.zDuration key d)
      | _ => none
    else if kd == FieldKindTime then
      match value with
      | .vTime t => some (.zTime key t)
      | _ => none
    else if kd == FieldKindError then
      match value with
      | .vError e =>
        some (if key == "" || key == fields.ErrorKey then .zError e else .zNamedError key e)
      | _ => none
    else if kd == FieldKindStrings then
      match value with
      | .vStrings l => some (.zStrings key l)
      | _ => none
    else if kd == FieldKindBools then
      match value with
      | .vBools l => some (.zBools key l)
      | _ => none
    else if kd == FieldKindInt64s then
      match value with
      | .vInt64s l => some (.zInt64s key l)
      | _ => none
    else if kd == FieldKindUint64s then
      match value with
      | .vUint64s l => some (.zUint64s key l)
      | _ => none
    else if kd == FieldKindFloat64s then
      match value with
      | .vFloat64s l => some (.zFloat64s key l)
      | _ => none
    else if kd == FieldKindErrors then
      match value with
      | .vErrors l => some (.zErrors key l)
      | _ => none
    else if kd == FieldKindRawJSON then
      match value with
      | .vBytes b => some (.zAnyJSON key b)
      | _ => none
    else if kd == FieldKindHexBytes then
      match value with
      | .vBytes b => some (.zString key (hexEncode b))
      | _ => none
    else if kd == FieldKindDict then
      match value with
      | .vFields l => some (.zObject key l)
      | _ => none
    else if kd == FieldKindTimestamp then
      match value with
      | .vTime t => some (.zTime key (if t == 0 then now else t))
      | _ => none
    else if kd == FieldKindAny then some (.zAny key value)
    else some .zSkip

/-- Any field whose kind is not Invalid is dropped whole by toZapFields's
leading `if f.IsSkip() { continue }` guard, because IsSkip returns
`!IsZero()`. -/
theorem toZapFields_cons_skip (enabled : Bl) (now : GoTime) (key : Str) (kd : Nat)
    (value : GoValue) (rest : List Field) (h : kd ≠ FieldKindInvalid) :
    toZapFields enabled now (.mk key kd value :: rest) = toZapFields enabled now rest := by
  cases hrest : toZapFields enabled now rest <;>
    cases value <;>
      simp [toZapFields, Field.IsSkip, Field.IsZero, Field.Kind, h, hrest]

/-- An Invalid-kind field passes the guard (IsSkip is false on it), matches
no switch case, and so appends `zap.Skip()` in the default arm. -/
theorem toZapFields_cons_invalid (enabled : Bl) (now : GoTime) (key : Str)
    (value : GoValue) (rest : List Field) :
    toZapFields enabled now (.mk key FieldKindInvalid value :: rest) =
      Option.bind (toZapFields enabled now rest) (fun tl => some (.zSkip :: tl)) := by
  cases value <;>
    simp [toZapFields, Field.IsSkip, Field.IsZero, Field.Kind, FieldKindInvalid,
      FieldKindAny, FieldKindString, FieldKindBool, FieldKindInt64, FieldKindUint64,
      FieldKindFloat64, FieldKindTime, FieldKindDuration, FieldKindError, FieldKindStrings,
      FieldKindBools, FieldKindInt64s, FieldKindUint64s, FieldKindFloat64s, FieldKindErrors,
      FieldKindDict, FieldKindRawJSON, FieldKindHexBytes, FieldKindLazyFields,
      FieldKindLazyValue, FieldKindTimestamp]

/-- Closed form of toZapFields as written: it never panics, and its entire
output is one `zap.Skip()` entry per Invalid-kind input field; every other
field is dropped by the inverted IsSkip guard. -/
theorem toZapFields_eval (enabled : Bl) (now : GoTime) (fs : List Field) :
    toZapFields enabled now fs =
      some (((fs.filter fun f => f.Kind == FieldKindInvalid).map fun _ => ZapField.zSkip)) := by
  induction fs with
  | nil => simp [toZapFields]
  | cons f rest ih =>
    obtain ⟨key, kd, value⟩ := f
    by_cases h : kd = FieldKindInvalid
    · subst h
      rw [toZapFields_cons_invalid, ih]
      simp [List.filter_cons, Field.Kind]
    · rw [toZapFields_cons_skip enabled now key kd value rest h, ih]
      simp [List.filter_cons, Field.Kind, h]

/-- Closed form of dictMarshaler.MarshalLogObject as written: it adds no
entries at all — valid sub-fields are dropped by the inverted IsSkip guard
and Invalid ones by the default arm. -/
theorem marshalDict_eval (now : GoTime) (fs : List Field) :
    marshalDict now fs = some [] := by
  induction fs with
  | nil => simp [marshalDict]
  | cons f rest ih =>
    obtain ⟨key, kd, value⟩ := f
    by_cases h : kd = FieldKindInvalid
    · subst h
      cases value <;>
        simp [marshalDict, Field.IsSkip, Field.IsZero, Field.Kind, FieldKindInvalid,
          FieldKindAny, FieldKindString, FieldKindBool, FieldKindInt64, FieldKindUint64,
          FieldKindFloat64, FieldKindTime, FieldKindDuration, FieldKindError,
          FieldKindStrings, FieldKindBools, FieldKindInt64s, FieldKindUint64s,
          FieldKindFloat64s, FieldKindErrors, FieldKindDict, FieldKindRawJSON,
          FieldKindHexBytes, FieldKindLazyFields, FieldKindLazyValue, FieldKindTimestamp, ih]
    · cases value <;>
        simp [marshalDict, Field.IsSkip, Field.IsZero, Field.Kind, h, ih]


/-- toZapFields never reaches `fn()`: a lazy field's kind is not Invalid, so
the inverted IsSkip guard drops it before the LazyValue case can run, at any
severity. -/
theorem lazyCalls_eq_zero (enabled : Bl) (fs : List Field) : lazyCalls enabled fs = 0 := by
  induction fs with
  | nil => simp [lazyCalls]
  | cons f rest ih =>
    obtain ⟨key, kd, value⟩ := f
    by_cases h : kd = FieldKindInvalid
    · subst h
      cases value <;>
        simp [lazyCalls, Field.IsSkip, Field.IsZero, Field.Kind, FieldKindInvalid,
          FieldKindLazyValue, ih]
    · cases value <;> simp [lazyCalls, Field.IsSkip, Field.IsZero, Field.Kind, h, ih]

/-- Claim C1 (refuted as stated; code bug): the claim says a no-op Field
contributes zero output entries and a non-no-op, non-lazy Field exactly one,
recursively inside Dict payloads. The code does the opposite: translating
`[Nop()]` yields one `zap.Skip()` entry, translating `[String("user",
"alice")]` yields zero entries, and the dict marshaler encodes a nested
`String("method", "GET")` to zero entries. -/
theorem c1_noop_skip_inverted :
    toZapFields true 0 [fields.Nop] = some [ZapField.zSkip] ∧
    toZapFields true 0 [fields.String "user" "alice"] = some [] ∧
    marshalDict 0 [fields.String "method" "GET"] = some [] := by
  refine ⟨?_, ?_, marshalDict_eval 0 _⟩ <;>
    simp [toZapFields_eval, fields.Nop, fields.String, Field.Kind, FieldKindInvalid,
      FieldKindString, List.filter_cons]

/-- Claim C2 (refuted as stated; code bug): the claim says IsSkip() is true
on the canonical no-op Field and false on constructor-produced Fields. As
implemented IsSkip returns `!IsZero()`: false on `Nop()` and true on
Fields from String, Bool, Int64 and Dict. IsZero is true on `Nop()`. -/
theorem c2_isskip_reports_emittable :
    fields.Nop.IsSkip = false ∧ fields.Nop.IsZero = true ∧
    (fields.String "k" "v").IsSkip = true ∧ (fields.Bool "b" true).IsSkip = true ∧
    (fields.Int64 "i" 1).IsSkip = true ∧ (fields.Dict "d" []).IsSkip = true :=
  ⟨rfl, rfl, rfl, rfl, rfl, rfl⟩

/-- Claim C3 (refuted as stated; code bug): the claim says a lazy field's
producer runs exactly once per translation at an enabled severity and zero
times at a disabled one. Counting producer invocations along toZapFields's
exact control flow shows the producer is invoked zero times for every input
at every severity, and a LazyValue field translates to no output even when
enabled. -/
theorem c3_lazy_producer_never_invoked :
    (∀ (enabled : Bl) (fs : List Field), lazyCalls enabled fs = 0) ∧
    lazyCalls true [Field.mk "" FieldKindLazyValue (.vFunc [fields.String "a" "x"])] = 0 ∧
    toZapFields true 0 [Field.mk "" FieldKindLazyValue (.vFunc [fields.String "a" "x"])] =
      some [] := by
  refine ⟨lazyCalls_eq_zero, lazyCalls_eq_zero true _, ?_⟩
  simp [toZapFields_eval, Field.Kind, FieldKindInvalid, FieldKindLazyValue, List.filter_cons]

/-- Claim C4 (refuted as stated; code bug): the claim says a Field produced
by Native(zf) is recognized by a backend pre-check and unwrapped to zf
before generic Any handling. On the code, translating `[Native zf]` at an
enabled severity yields the empty output — never the unwrapped `[zf]` — and
no pre-check exists in the FieldKindAny case. -/
theorem c4_native_never_unwrapped :
    (∀ zf : ZapField, toZapFields true 0 [Native zf] = some []) ∧
    (∀ zf : ZapField, toZapFields true 0 [Native zf] ≠ some [zf]) := by
  have hz : ∀ zf : ZapField, toZapFields true 0 [Native zf] = some [] := by
    intro zf
    simp [toZapFields_eval, Native, fields.Any, Field.Kind, FieldKindInvalid, FieldKindAny,
      List.filter_cons]
  exact ⟨hz, fun zf hc => by rw [hz zf] at hc; simp at hc⟩

/-- Claim C5 (refuted as stated; code bug): the claim says that for
lazy-free input the output key sequence equals the input key sequence of
non-no-op fields. Translating `[String("a","x"), Bool("b",true)]` yields
the empty output, whose key sequence is empty rather than `["a", "b"]`. -/
theorem c5_keys_not_preserved :
    toZapFields true 0 [fields.String "a" "x", fields.Bool "b" true] = some [] := by
  simp [toZapFields_eval, fields.String, fields.Bool, Field.Kind, FieldKindInvalid,
    FieldKindString, FieldKindBool, List.filter_cons]

/-- Claim C6 (confirmed): every constructor of the Field Value Model yields
a Field whose Kind() is the documented Kind and whose payload is exactly
the value passed in, the only coercions being the documented widenings of
Int and Uint to the 64-bit representations; and the generic From maps
string, bool, int, int64, uint, uint64, float64, time.Time, time.Duration
and error payloads to their matching Kinds (an error through NamedError, so
its Kind is Error) and every other payload shape to Any, never failing
(From is total by construction). -/
theorem c6_constructor_roundtrip :
    ∀ (k s : Str) (bv : Bl) (i : GoInt) (u : GoNat) (x : GoFloat) (t : GoTime)
      (d : GoDuration) (e : GoErr) (ls : List Str) (lb : List Bl) (li : List GoInt)
      (lu : List GoNat) (lx : List GoFloat) (le : List (Option GoErr))
      (bs : List GoNat) (fs : List Field) (v : GoValue),
    fields.Any k v = Field.mk k FieldKindAny v ∧
    fields.String k s = Field.mk k FieldKindString (.vString s) ∧
    fields.Bool k bv = Field.mk k FieldKindBool (.vBool bv) ∧
    fields.Int k i = Field.mk k FieldKindInt64 (.vInt64 i) ∧
    fields.Int64 k i = Field.mk k FieldKindInt64 (.vInt64 i) ∧
    fields.Uint k u = Field.mk k FieldKindUint64 (.vUint64 u) ∧
    fields.Uint64 k u = Field.mk k FieldKindUint64 (.vUint64 u) ∧
    fields.Float64 k x = Field.mk k FieldKindFloat64 (.vFloat64 x) ∧
    fields.TimeField k t = Field.mk k FieldKindTime (.vTime t) ∧
    fields.Duration k d = Field.mk k FieldKindDuration (.vDuration d) ∧
    fields.Error (some e) = Field.mk fields.ErrorKey FieldKindError (.vError e) ∧
    fields.NamedError k (some e) = Field.mk k FieldKindError (.vError e) ∧
    fields.Strings k ls = Field.mk k FieldKindStrings (.vStrings ls) ∧
    fields.Bools k lb = Field.mk k FieldKindBools (.vBools lb) ∧
    fields.Int64s k li = Field.mk k FieldKindInt64s (.vInt64s li) ∧
    fields.Uint64s k lu = Field.mk k FieldKindUint64s (.vUint64s lu) ∧
    fields.Float64s k lx = Field.mk k FieldKindFloat64s (.vFloat64s lx) ∧
    fields.Errors k le = Field.mk k FieldKindErrors (.vErrors le) ∧
    fields.Dict k fs = Field.mk k FieldKindDict (.vFields fs) ∧
    fields.RawJSON k bs = Field.mk k FieldKindRawJSON (.vBytes bs) ∧
    fields.Hex k bs = Field.mk k FieldKindHexBytes (.vBytes bs) ∧
    fields.LazyFields (some fs) = Field.mk "" FieldKindLazyFields (.vFunc fs) ∧
    fields.Lazy (some fs) = Field.mk "" FieldKindLazyFields (.vFunc fs) ∧
    fields.Timestamp t = Field.mk fields.TimestampKey FieldKindTimestamp (.vTime t) ∧
    fields.TimestampAt k t = Field.mk k FieldKindTimestamp (.vTime t) ∧
    fields.From k (.vString s) = fields.String k s ∧
    fields.From k (.vBool bv) = fields.Bool k bv ∧
    fields.From k (.vInt i) = fields.Int k i ∧
    fields.From k (.vInt64 i) = fields.Int64 k i ∧
    fields.From k (.vUint u) = fields.Uint k u ∧
    fields.From k (.vUint64 u) = fields.Uint64 k u ∧
    fields.From k (.vFloat64 x) = fields.Float64 k x ∧
    fields.From k (.vTime t) = fields.TimeField k t ∧
    fields.From k (.vDuration d) = fields.Duration k d ∧
    fields.From k (.vError e) = fields.NamedError k (some e) ∧
    (fields.From k (.vError e)).Kind = FieldKindError ∧
    fields.From k .vNil = fields.Any k .vNil ∧
    fields.From k .vUnit = fields.Any k .vUnit ∧
    fields.From k (.vStrings ls) = fields.Any k (.vStrings ls) ∧
    fields.From k (.vBools lb) = fields.Any k (.vBools lb) ∧
    fields.From k (.vInt64s li) = fields.Any k (.vInt64s li) ∧
    fields.From k (.vUint64s lu) = fields.Any k (.vUint64s lu) ∧
    fields.From k (.vFloat64s lx) = fields.Any k (.vFloat64s lx) ∧
    fields.From k (.vErrors le) = fields.Any k (.vErrors le) ∧
    fields.From k (.vBytes bs) = fields.Any k (.vBytes bs) ∧
    fields.From k (.vFields fs) = fields.Any k (.vFields fs) ∧
    fields.From k (.vFunc fs) = fields.Any k (.vFunc fs) := by
  intros
  repeat' constructor

/-- Claim C7 (confirmed): for every key k, Error(nil) and NamedError(k, nil)
both return exactly the canonical no-op Field Nop() — same Key, same Kind,
empty payload marker — and neither signals an error (both are total and
return a Field). -/
theorem c7_nil_error_yields_nop :
    (∀ k : Str, fields.NamedError k none = fields.Nop) ∧ fields.Error none = fields.Nop :=
  ⟨fun _ => rfl, rfl⟩

/-- Claim C8 (confirmed): a Field whose Kind lies outside the defined
enumeration translates without error or panic (the result is `some`):
per-field translation ToZap returns the backend no-op field zap.Skip(), and
in the sequence translator the unknown-kind field is a dropped entry that
leaves the output contributed by the surrounding fields unchanged. -/
theorem c8_unknown_kind_dropped (key : Str) (v : GoValue) (kd : Nat) (now : GoTime)
    (enabled : Bl) (fs1 fs2 : List Field) (h : kd ∉ definedFieldKinds) :
    ToZap now (Field.mk key kd v) = some ZapField.zSkip ∧
    toZapFields enabled now (fs1 ++ Field.mk key kd v :: fs2) =
      toZapFields enabled now (fs1 ++ fs2) := by
  simp only [definedFieldKinds, List.mem_cons, List.not_mem_nil, or_false, not_or] at h
  obtain ⟨h0, h1, h2, h3, h4, h5, h6, h7, h8, h9, h10, h11, h12, h13, h14, h15, h16, h17,
    h18, h19, h20, h21⟩ := h
  constructor
  · cases v <;>
      simp [ToZap, FieldKindString, FieldKindBool, FieldKindInt64, FieldKindUint64,
        FieldKindFloat64, FieldKindDuration, FieldKindTime, FieldKindError, FieldKindStrings,
        FieldKindBools, FieldKindInt64s, FieldKindUint64s, FieldKindFloat64s, FieldKindErrors,
        FieldKindRawJSON, FieldKindHexBytes, FieldKindDict, FieldKindTimestamp, FieldKindAny,
        h1, h2, h3, h4, h5, h6, h7, h8, h9, h10, h11, h12, h13, h14, h15, h16, h17, h18, h21]
  · simp [toZapFields_eval, List.filter_append, List.filter_cons, Field.Kind,
      FieldKindInvalid, h0]

/-- Witness for C8 at the concrete out-of-enumeration kind 99. -/
theorem c8_unknown_kind_dropped_witness :
    (99 ∉ definedFieldKinds) ∧
    (ToZap 0 (Field.mk "u" 99 .vNil) = some ZapField.zSkip ∧
      toZapFields true 0 ([fields.String "a" "x"] ++ Field.mk "u" 99 .vNil :: [fields.Nop]) =
        toZapFields true 0 ([fields.String "a" "x"] ++ [fields.Nop])) :=
  ⟨by decide,
    c8_unknown_kind_dropped "u" .vNil 99 0 true [fields.String "a" "x"] [fields.Nop]
      (by decide)⟩

/-- Claim C9 (confirmed, for the per-field translator ToZap): a
Timestamp-kind Field carrying the zero time translates to the wall-clock
instant read at translation time (the `now` passed to the translator, not
anything captured at construction), and one carrying a non-zero time
translates to that carried time unchanged. -/
theorem c9_timestamp_substitution (k : Str) (now t : GoTime) (h : t ≠ 0) :
    ToZap now (fields.TimestampAt k 0) = some (ZapField.zTime k now) ∧
    ToZap now (fields.Timestamp 0) = some (ZapField.zTime fields.TimestampKey now) ∧
    ToZap now (fields.TimestampAt k t) = some (ZapField.zTime k t) := by
  refine ⟨?_, ?_, ?_⟩ <;>
    simp [ToZap, fields.TimestampAt, fields.Timestamp, fields.TimestampKey, FieldKindString,
      FieldKindBool, FieldKindInt64, FieldKindUint64, FieldKindFloat64, FieldKindDuration,
      FieldKindTime, FieldKindError, FieldKindStrings, FieldKindBools, FieldKindInt64s,
      FieldKindUint64s, FieldKindFloat64s, FieldKindErrors, FieldKindRawJSON,
      FieldKindHexBytes, FieldKindDict, FieldKindTimestamp, FieldKindAny, h]

/-- Witness for C9 with translation-time clock 5 and carried time 7. -/
theorem c9_timestamp_substitution_witness :
    (7 : GoTime) ≠ 0 ∧
    (ToZap 5 (fields.TimestampAt "k1" 0) = some (ZapField.zTime "k1" 5) ∧
      ToZap 5 (fields.Timestamp 0) = some (ZapField.zTime fields.TimestampKey 5) ∧
      ToZap 5 (fields.TimestampAt "k1" 7) = some (ZapField.zTime "k1" 7)) :=
  ⟨by decide, c9_timestamp_substitution "k1" 5 7 (by decide)⟩

/-- Claim C10 (confirmed): Lazy(nil) and LazyFields(nil) both return the
zero Field (empty key, Invalid kind, nil payload — the nil function is not
stored), IsZero() reports it as the no-op marker, and later translation
does not panic (it yields `some`, encoding each as a backend no-op
entry). -/
theorem c10_nil_lazy_safe :
    fields.Lazy none = Field.mk "" FieldKindInvalid .vNil ∧
    fields.LazyFields none = Field.mk "" FieldKindInvalid .vNil ∧
    (fields.Lazy none).IsZero = true ∧
    (fields.LazyFields none).IsZero = true ∧
    toZapFields true 0 [fields.Lazy none, fields.LazyFields none] =
      some [ZapField.zSkip, ZapField.zSkip] := by
  refine ⟨rfl, rfl, rfl, rfl, ?_⟩
  simp [toZapFields_eval, fields.Lazy, fields.LazyFields, Field.Kind, FieldKindInvalid,
    List.filter_cons]

end Logstox
